import Mathlib

/-!
Verification of the schema-driven code generator of the ServerDashboard
repository (directory `schema/generators`) and of its generated artifacts
(`srcs/DataCollection/generated/bash_parser.py`,
`srcs/Backend/generated/models/*.py`).

The Python code is shallowly embedded: Python `str` primitives are modelled
as structurally recursive Lean functions over `List Char` (so every
definition evaluates inside the kernel), Python dicts that are only built
and looked up are modelled as association lists in insertion order, and
exceptions are modelled with `Except`.
-/

namespace ServerDashboard

/-! ### Python string primitives -/

/-- Python `str.split(sep)` for a one-character separator: splits at every
occurrence of the separator, keeping empty parts (`"".split(',') == ['']`). -/
def splitCharAux (sep : Char) : List Char → List Char → List String
  | [], acc => [String.mk acc.reverse]
  | c :: cs, acc =>
      if c = sep then String.mk acc.reverse :: splitCharAux sep cs []
      else splitCharAux sep cs (c :: acc)

/-- Python `s.split(sep)` with a one-character separator. -/
def pySplit (s : String) (sep : Char) : List String :=
  splitCharAux sep s.data []

/-- Python `str.strip()`: remove leading and trailing whitespace. -/
def pyStrip (s : String) : String :=
  String.mk (((s.data.dropWhile Char.isWhitespace).reverse.dropWhile
    Char.isWhitespace).reverse)

/-- Python `str.rstrip('%')`: remove every trailing `%` character. -/
def pyRstripPercent (s : String) : String :=
  String.mk ((s.data.reverse.dropWhile (fun c => c = '%')).reverse)

/-- Python `'/' in s` for the slash character. -/
def pyContainsSlash (s : String) : Bool :=
  s.data.contains '/'

/-- Python no-argument `str.split()`: split on whitespace runs, dropping
empty parts. -/
def pySplitWs (s : String) : List String :=
  (splitCharAux ' ' (s.data.map (fun c => if c.isWhitespace then ' ' else c))
    []).filter (fun x => !(x.data.isEmpty))

/-- Python `'----' in line`: does the character list contain four
consecutive dashes? -/
def charListHasDashes : List Char → Bool
  | '-' :: '-' :: '-' :: '-' :: _ => true
  | _ :: rest => charListHasDashes rest
  | [] => false

/-! ### The extraction micro-language
(`schema/generators/generate_parsers.py`, lines 42-72)

`generate_parsers` iterates the schema fields carrying `bash_output` and
emits, per field, one of five code snippets selected by the field's
`bash_format` string: `"raw"`, `"part_before_slash"`, `"part_after_slash"`,
a string starting with `"csv_split_"` (whose numeric suffix is spliced into
the emitted code as an index literal), and `"strip_percent"`.  Any other
format string matches no branch and the generator emits no code at all for
that field. -/

/-- The format tokens dispatched by `generate_parsers`. -/
inductive BashFormat where
  | raw
  | part_before_slash
  | part_after_slash
  | csv_split (n : Nat)
  | strip_percent
deriving DecidableEq

/-- One schema field as seen by the parser generator: its `name`,
`bash_index` and `bash_format`. -/
structure BashField where
  name : String
  bash_index : Nat
  bash_format : BashFormat
deriving DecidableEq

/-- The per-field extraction code emitted by `generate_parsers`, evaluated on
the comma-split `parts` of the input line.  The outer `Option` records
whether the emitted code assigns `result[name]` at all (`none` = the key is
never set), the inner `Option String` is the assigned Python value
(`none` = Python `None`):
  - `raw` emits `result[name] = parts[i].strip() if len(parts) > i else None`;
  - `part_before_slash` / `part_after_slash` emit, under `if len(parts) > i`,
    `parts[i].split('/')[0 or 1].strip() if '/' in parts[i] else parts[i].strip()`;
  - `csv_split n` emits, under `if len(parts) > i`,
    `csv_parts = parts[i].split(',')` and
    `csv_parts[n].strip() if len(csv_parts) > n else None`;
  - `strip_percent` emits, under `if len(parts) > i`,
    `parts[i].rstrip('%').strip()`. -/
def extractField (parts : List String) (idx : Nat) :
    BashFormat → Option (Option String)
  | BashFormat.raw =>
      some (if idx < parts.length then some (pyStrip (parts.getD idx "")) else none)
  | BashFormat.part_before_slash =>
      if idx < parts.length then
        let v := parts.getD idx ""
        some (some (if pyContainsSlash v then pyStrip ((pySplit v '/').getD 0 "")
          else pyStrip v))
      else none
  | BashFormat.part_after_slash =>
      if idx < parts.length then
        let v := parts.getD idx ""
        some (some (if pyContainsSlash v then pyStrip ((pySplit v '/').getD 1 "")
          else pyStrip v))
      else none
  | BashFormat.csv_split n =>
      if idx < parts.length then
        let csv_parts := pySplit (parts.getD idx "") ','
        some (if n < csv_parts.length then some (pyStrip (csv_parts.getD n ""))
          else none)
      else none
  | BashFormat.strip_percent =>
      if idx < parts.length then
        some (some (pyStrip (pyRstripPercent (parts.getD idx ""))))
      else none

/-- The body of the generated `parse_server_metrics`: run the emitted
snippet of every bash field in schema order, building the `result` dict in
insertion order. -/
def runFields (parts : List String) : List BashField → List (String × Option String)
  | [] => []
  | f :: fs =>
      match extractField parts f.bash_index f.bash_format with
      | some v => (f.name, v) :: runFields parts fs
      | none => runFields parts fs

/-- Generated `parse_server_metrics(bash_output)`
(`srcs/DataCollection/generated/bash_parser.py`, lines 9-48):
`parts = bash_output.strip().split(',')`, then one emitted snippet per
bash field. -/
def parse_server_metrics (fields : List BashField) (bash_output : String) :
    List (String × Option String) :=
  runFields (pySplit (pyStrip bash_output) ',') fields

/-- The bash fields of the `server_metrics` entity, read off the generated
`bash_parser.py` (one line per emitted snippet, in order). -/
def serverMetricsBashFields : List BashField :=
  [⟨"architecture", 0, BashFormat.raw⟩,
   ⟨"os", 1, BashFormat.raw⟩,
   ⟨"physical_cpus", 2, BashFormat.raw⟩,
   ⟨"virtual_cpus", 3, BashFormat.raw⟩,
   ⟨"ram_used", 4, BashFormat.part_before_slash⟩,
   ⟨"ram_total", 4, BashFormat.part_after_slash⟩,
   ⟨"ram_percentage", 5, BashFormat.raw⟩,
   ⟨"disk_used", 6, BashFormat.part_before_slash⟩,
   ⟨"disk_total", 6, BashFormat.part_after_slash⟩,
   ⟨"disk_percentage", 7, BashFormat.strip_percent⟩,
   ⟨"cpu_load_1min", 8, BashFormat.csv_split 0⟩,
   ⟨"cpu_load_5min", 8, BashFormat.csv_split 1⟩,
   ⟨"cpu_load_15min", 8, BashFormat.csv_split 2⟩,
   ⟨"last_boot", 9, BashFormat.raw⟩,
   ⟨"tcp_connections", 10, BashFormat.raw⟩,
   ⟨"logged_users", 11, BashFormat.raw⟩,
   ⟨"active_vnc", 12, BashFormat.raw⟩,
   ⟨"active_ssh", 13, BashFormat.raw⟩]

/-- Generated `parse_top_users_line(bash_line)`
(`bash_parser.py`, lines 50-71): whitespace-split the stripped line, return
the empty dict when there are no parts, else one raw extraction per field
(the generator emits the `raw` snippet for every `top_users` bash field,
ignoring its format). -/
def parse_top_users_line (fields : List (String × Nat)) (bash_line : String) :
    List (String × Option String) :=
  let parts := pySplitWs (pyStrip bash_line)
  if parts.isEmpty then []
  else fields.map (fun f =>
    (f.1, if f.2 < parts.length then some (pyStrip (parts.getD f.2 "")) else none))

/-- The bash fields of the `top_users` entity, read off the generated
`bash_parser.py` lines 62-69. -/
def topUsersBashFields : List (String × Nat) :=
  [("username", 0), ("cpu_percentage", 1), ("memory_percentage", 2),
   ("disk_usage_gb", 3), ("process_count", 4), ("top_process", 5),
   ("last_login", 6), ("full_name", 7)]

/-- Generated `parse_top_users(bash_output)` (`bash_parser.py`, lines
73-86): keep non-blank lines, drop the first two (headers), drop every line
containing `----`, parse the rest. -/
def parse_top_users (fields : List (String × Nat)) (bash_output : String) :
    List (List (String × Option String)) :=
  let lines := (pySplit bash_output '\n').filter (fun l => !((pyStrip l).data.isEmpty))
  let data_lines := (lines.drop 2).filter (fun l => !(charListHasDashes l.data))
  (data_lines.filter (fun l => !((pyStrip l).data.isEmpty))).map
    (parse_top_users_line fields)

/-! ### Generated dataclasses
(`schema/generators/generate_python.py`, `generate_dataclass`, lines 27-80;
generated `srcs/Backend/generated/models/server_metrics.py`, `top_users.py`)

A runtime value of a generated dataclass field.  The generated
`to_dict`/`from_dict` inspect values only through `isinstance(v, datetime)`,
so the embedding distinguishes a `datetime` (carried by its canonical
`isoformat` text, on which Python `datetime` instances are in bijection)
from the other value shapes. -/
inductive PyValue where
  | none_
  | int (n : Int)
  | str (s : String)
  | datetime (iso : String)
deriving DecidableEq

/-- Does `isinstance(v, datetime)` hold? -/
def isDatetime : PyValue → Bool
  | PyValue.datetime _ => true
  | _ => false

/-- One declared field of a generated dataclass, with the schema attributes
the generator reads (`generate_python.py`, line 49). -/
structure FieldDecl where
  name : String
  nullable : Bool := true
  primary_key : Bool := false
deriving DecidableEq

/-- `is_optional = f.get("nullable", True) and not f.get("primary_key")`
(`generate_python.py`, line 49): an optional field is emitted with default
`None`, a non-optional field is a required constructor argument. -/
def is_optional (d : FieldDecl) : Bool :=
  d.nullable && !d.primary_key

/-- `v.isoformat() if isinstance(v, datetime) else v`
(`generate_python.py`, line 69). -/
def serializeValue : PyValue → PyValue
  | PyValue.datetime iso => PyValue.str iso
  | v => v

/-- Generated `to_dict(self)`: the dict of the instance's fields in
declaration order, datetimes rendered as their isoformat text.  An instance
is the list of its field values, aligned with the declarations. -/
def to_dict (decls : List FieldDecl) (vals : List PyValue) :
    List (String × PyValue) :=
  (decls.zip vals).map (fun p => (p.1.name, serializeValue p.2))

/-- Generated `from_dict(cls, data)`:
`cls(**.x7bk: v for k, v in data.items() if k in cls.__annotations__.x7d)`.
Keys of `data` not naming a declared field are dropped; a declared field
takes the value found under its name; an optional field missing from `data`
takes its default `None`; a required field missing from `data` makes the
constructor call raise `TypeError` (modelled as `Except.error` carrying the
field name). -/
def from_dict : List FieldDecl → List (String × PyValue) →
    Except String (List PyValue)
  | [], _ => Except.ok []
  | d :: ds, data =>
      match List.lookup d.name data with
      | some v =>
          match from_dict ds data with
          | Except.ok vs => Except.ok (v :: vs)
          | Except.error e => Except.error e
      | none =>
          if is_optional d then
            match from_dict ds data with
            | Except.ok vs => Except.ok (PyValue.none_ :: vs)
            | Except.error e => Except.error e
          else Except.error d.name

/-- The field declarations of the generated `ServerMetrics` dataclass
(`server_metrics.py`, lines 16-56): `id` is the primary key, `server_name`
and `timestamp` are non-nullable, the rest are optional. -/
def serverMetricsDecls : List FieldDecl :=
  [⟨"id", true, true⟩,
   ⟨"server_name", false, false⟩,
   ⟨"timestamp", false, false⟩,
   ⟨"architecture", true, false⟩,
   ⟨"os", true, false⟩,
   ⟨"physical_cpus", true, false⟩,
   ⟨"virtual_cpus", true, false⟩,
   ⟨"ram_used", true, false⟩,
   ⟨"ram_total", true, false⟩,
   ⟨"ram_percentage", true, false⟩,
   ⟨"disk_used", true, false⟩,
   ⟨"disk_total", true, false⟩,
   ⟨"disk_percentage", true, false⟩,
   ⟨"cpu_load_1min", true, false⟩,
   ⟨"cpu_load_5min", true, false⟩,
   ⟨"cpu_load_15min", true, false⟩,
   ⟨"last_boot", true, false⟩,
   ⟨"tcp_connections", true, false⟩,
   ⟨"logged_users", true, false⟩,
   ⟨"active_vnc", true, false⟩,
   ⟨"active_ssh", true, false⟩]

/-! ### Type-mapping tables -/

/-- `yaml_type.split('(')[0] if '(' in yaml_type else yaml_type`
(`generate_python.py`, line 23 and `generate_typescript.py`, line 23). -/
def pyBaseType (yaml_type : String) : String :=
  if yaml_type.data.contains '(' then (pySplit yaml_type '(').getD 0 ""
  else yaml_type

/-- The dict literal of `python_type_mapping` (`generate_python.py`,
lines 13-21). -/
def pythonMappingTable : List (String × String) :=
  [("serial", "int"), ("integer", "int"), ("varchar", "str"),
   ("decimal", "float"), ("timestamp", "datetime"), ("text", "str"),
   ("boolean", "bool")]

/-- `python_type_mapping(yaml_type)` (`generate_python.py`, lines 11-24):
`mapping.get(base_type, 'Any')`. -/
def python_type_mapping (yaml_type : String) : String :=
  (List.lookup (pyBaseType yaml_type) pythonMappingTable).getD "Any"

/-- The dict literal of `ts_type_mapping` (`generate_typescript.py`,
lines 13-21). -/
def tsMappingTable : List (String × String) :=
  [("serial", "number"), ("integer", "number"), ("varchar", "string"),
   ("decimal", "number"), ("timestamp", "Date | string"),
   ("text", "string"), ("boolean", "boolean")]

/-- `ts_type_mapping(yaml_type)` (`generate_typescript.py`, lines 11-24):
`mapping.get(base_type, 'any')`. -/
def ts_type_mapping (yaml_type : String) : String :=
  (List.lookup (pyBaseType yaml_type) tsMappingTable).getD "any"

/-- Python `str.upper()` on ASCII tokens. -/
def pyUpper (s : String) : String :=
  String.mk (s.data.map Char.toUpper)

/-- The storage column type emitted by `generate_create_table`
(`generate_sql.py`, line 20): `sql_type = field["type"].upper()` — the
schema token upper-cased verbatim, with no mapping table in between. -/
def sqlFieldType (yaml_type : String) : String :=
  pyUpper yaml_type

/-- Is the (parameter-stripped) schema type token a key of the mapping
tables?  Both tables share the same key set. -/
def isKnownToken (yaml_type : String) : Bool :=
  (pythonMappingTable.map Prod.fst).contains (pyBaseType yaml_type)

/-! ### The Schema Validator
(`schema/generators/generate_all.py`, `SchemaGenerator.validate_schema`,
lines 48-99)

The Python function appends human-readable message strings to an `errors`
list; each message template is modelled by one constructor carrying the
data interpolated into it. -/

/-- One validation error, one constructor per `errors.append` site:
  - `missingKey k`: `"Missing required key: .x7bkey.x7d"` (line 58);
  - `fieldMissingName`: `"Field missing 'name' property: ..."` (line 68);
  - `fieldMissingType n`: `"Field '.x7bn.x7d' missing 'type' property"` (line 72);
  - `duplicateBashIndex i f n`: `"Duplicate bash_index .x7bi.x7d with format
    '.x7bf.x7d' for field '.x7bn.x7d'"` (line 81);
  - `invalidTopUsersField`: `"Invalid field in top_users: ..."` (line 90). -/
inductive VError where
  | missingKey (k : String)
  | fieldMissingName
  | fieldMissingType (fieldName : String)
  | duplicateBashIndex (idx : Nat) (fmt : String) (fieldName : String)
  | invalidTopUsersField
deriving DecidableEq

/-- Is the error a duplicate-provenance error (the only message that
reports a repeated `(bash_index, bash_format)` pair)? -/
def isDupErr : VError → Bool
  | VError.duplicateBashIndex _ _ _ => true
  | _ => false

/-- One field dict of the schema document, as the validator reads it: the
optional `name` and `type` keys (present-but-empty is `some ""`), the
truthiness of `field.get("bash_output")`, and the optional `bash_index` and
`bash_format` keys. -/
structure SchemaField where
  name : Option String := none
  ftype : Option String := none
  bash_output : Bool := false
  bash_index : Option Nat := none
  bash_format : Option String := none
deriving DecidableEq

/-- One entity section of the schema document; a missing `fields` key is the
default `[]` (`self.schema[...].get("fields", [])`, lines 62 and 87). -/
structure SchemaEntity where
  fields : List SchemaField := []
deriving DecidableEq

/-- The loaded schema document as the validator reads it: presence of the
`version` key and the two optional entity sections. -/
structure SchemaDoc where
  version : Bool := true
  server_metrics : Option SchemaEntity := none
  top_users : Option SchemaEntity := none
deriving DecidableEq

/-- The `server_metrics` field loop (`generate_all.py`, lines 65-83),
threading the `bash_indices` accumulator: a field without `name` is
reported and skipped (`continue`); a field without `type` is reported; a
bash-output field with a `bash_index` is checked against the accumulated
`(bash_index, bash_format-defaulting-to-raw)` pairs and its pair is then
appended (even when it was a duplicate). -/
def serverFieldsCheck : List SchemaField → List (Nat × String) → List VError
  | [], _ => []
  | f :: fs, seen =>
      match f.name with
      | none => VError.fieldMissingName :: serverFieldsCheck fs seen
      | some n =>
          let typeErrs := if f.ftype.isNone then [VError.fieldMissingType n] else []
          match f.bash_output, f.bash_index with
          | true, some idx =>
              let fmt := f.bash_format.getD "raw"
              let dupErrs :=
                if (idx, fmt) ∈ seen then [VError.duplicateBashIndex idx fmt n]
                else []
              typeErrs ++ dupErrs ++ serverFieldsCheck fs (seen ++ [(idx, fmt)])
          | _, _ => typeErrs ++ serverFieldsCheck fs seen

/-- The `top_users` field loop (`generate_all.py`, lines 88-90): one error
per field missing its `name` or `type` key. -/
def topUsersCheck (fs : List SchemaField) : List VError :=
  fs.filterMap (fun f =>
    if f.name.isNone || f.ftype.isNone then some VError.invalidTopUsersField
    else none)

/-- `validate_schema` (`generate_all.py`, lines 48-99) as the pure function
from the loaded document to the complete error list it accumulates: missing
required top-level keys, then the `server_metrics` field loop, then the
`top_users` field loop. -/
def validate_schema (s : SchemaDoc) : List VError :=
  (if s.version then [] else [VError.missingKey "version"]) ++
  (if s.server_metrics.isSome then [] else [VError.missingKey "server_metrics"]) ++
  (if s.top_users.isSome then [] else [VError.missingKey "top_users"]) ++
  (match s.server_metrics with
   | some e => serverFieldsCheck e.fields []
   | none => []) ++
  (match s.top_users with
   | some e => topUsersCheck e.fields
   | none => [])

/-- The boolean the Python function returns: `True` iff the accumulated
error list is empty (lines 92-99). -/
def validate_ok (s : SchemaDoc) : Bool :=
  (validate_schema s).isEmpty

/-- The extraction-provenance pairs the validator accumulates for an entity:
one `(bash_index, bash_format-defaulting-to-raw)` pair per field that has a
`name`, a truthy `bash_output` and a `bash_index`, in field order. -/
def bashPairs : List SchemaField → List (Nat × String)
  | [] => []
  | f :: fs =>
      match f.name, f.bash_output, f.bash_index with
      | some _, true, some idx => (idx, f.bash_format.getD "raw") :: bashPairs fs
      | _, _, _ => bashPairs fs

/-! ### The Orchestrator
(`generate_all.py`, `SchemaGenerator.generate_all` lines 101-195 and `main`
lines 222-260)

Each target generator is an effectful Python function that either returns
its written files or raises; a run maps each target name to such an
outcome, modelled as `Except`.  `generate_all` tries the six known targets
in its fixed order, restricted to the selected subset, catching each
failure locally. -/

/-- The fixed order in which `generate_all` tries its targets
(lines 104 and 112-188). -/
def targetOrder : List String :=
  ["sql", "python", "typescript", "validators", "parsers", "docs"]

/-- The orchestrator state threaded through `generate_all`: the aggregate
`success` flag, the `generated_files` list, and the trace of targets whose
generator was invoked. -/
structure RunState where
  success : Bool
  generated_files : List String
  attempted : List String
deriving DecidableEq

/-- One `try/except` block of `generate_all`: on success append the files,
on an exception record the failure and keep going. -/
def runTarget (gens : String → Except String (List String)) (st : RunState)
    (name : String) : RunState :=
  match gens name with
  | Except.ok files =>
      { st with generated_files := st.generated_files ++ files,
                attempted := st.attempted ++ [name] }
  | Except.error _ =>
      { st with success := false, attempted := st.attempted ++ [name] }

/-- `generate_all(targets)` (lines 101-195): default the selection to all
six targets, then try each known target that is selected, in the fixed
order, aggregating failures without stopping. -/
def generate_all (gens : String → Except String (List String))
    (targets : Option (List String)) : RunState :=
  let ts := targets.getD targetOrder
  (targetOrder.filter (fun n => ts.contains n)).foldl (runTarget gens)
    ⟨true, [], []⟩

/-- `main` (lines 222-260), after loading: validate first and
`sys.exit(1)` before any generator when validation fails; under
`--validate-only` stop with exit 0; otherwise run `generate_all` and
`sys.exit(0 if success else 1)`.  Returns the exit code and the trace of
generator targets invoked. -/
def mainRun (s : SchemaDoc) (gens : String → Except String (List String))
    (validateOnly : Bool) (targets : Option (List String)) :
    Nat × List String :=
  if !(validate_ok s) then (1, [])
  else if validateOnly then (0, [])
  else
    let st := generate_all gens targets
    ((if st.success then 0 else 1), st.attempted)

/-- Did the target's generator raise? -/
def isErr : Except String (List String) → Bool
  | Except.error _ => true
  | Except.ok _ => false

/-! ### Concrete inputs used by the witnesses and counterexamples -/

/-- The literal extraction-scenario input line of the specification. -/
def sampleLine : String :=
  "x86_64,Linux,2,4,8G/16G,50,100G/500G,20%,0.1,0.2,0.3,2024-01-01,5,2,0,1"

/-- A single-line input whose positional slot 7 is ` 20% ` (whitespace
around the percent sign). -/
def c4Line : String := "a,b,c,d,e,f,g, 20% ,h"

/-- An all-present `ServerMetrics` instance whose `timestamp` field holds a
datetime value, aligned with `serverMetricsDecls`. -/
def c1Vals : List PyValue :=
  [PyValue.int 1, PyValue.str "alpha", PyValue.datetime "2024-01-01T00:00:00",
   PyValue.str "x86_64", PyValue.str "Linux", PyValue.int 2, PyValue.int 4,
   PyValue.str "8G", PyValue.str "16G", PyValue.int 50, PyValue.str "100G",
   PyValue.str "500G", PyValue.str "20", PyValue.str "0.1", PyValue.str "0.2",
   PyValue.str "0.3", PyValue.str "2024-01-01", PyValue.int 5, PyValue.int 2,
   PyValue.int 0, PyValue.int 1]

/-- The same instance with `timestamp` already holding plain text, so no
field holds a datetime value. -/
def c1ValsText : List PyValue :=
  [PyValue.int 1, PyValue.str "alpha", PyValue.str "2024-01-01T00:00:00",
   PyValue.str "x86_64", PyValue.str "Linux", PyValue.int 2, PyValue.int 4,
   PyValue.str "8G", PyValue.str "16G", PyValue.int 50, PyValue.str "100G",
   PyValue.str "500G", PyValue.str "20", PyValue.str "0.1", PyValue.str "0.2",
   PyValue.str "0.3", PyValue.str "2024-01-01", PyValue.int 5, PyValue.int 2,
   PyValue.int 0, PyValue.int 1]

/-- A schema field declaring extraction provenance `(3, "raw")`. -/
def dupField (nm : String) : SchemaField :=
  { name := some nm, ftype := some "integer", bash_output := true,
    bash_index := some 3, bash_format := some "raw" }

/-- A schema document whose `top_users` entity has two distinct fields with
the identical `(bash_index, bash_format)` pair. -/
def c2Doc : SchemaDoc :=
  { version := true, server_metrics := some ⟨[]⟩,
    top_users := some ⟨[dupField "a", dupField "b"]⟩ }

/-- A schema document whose entities each hold one field with
present-but-empty `name` and `type`. -/
def c8Doc : SchemaDoc :=
  { version := true,
    server_metrics := some ⟨[{ name := some "", ftype := some "" }]⟩,
    top_users := some ⟨[{ name := some "", ftype := some "" }]⟩ }

/-- A schema document with a missing `version` key, a `server_metrics`
field missing its `name` key, a named field missing its `type` key, and no
`top_users` section. -/
def c8BadDoc : SchemaDoc :=
  { version := false,
    server_metrics := some ⟨[{ name := none, ftype := none },
      { name := some "x", ftype := none }]⟩,
    top_users := none }

/-- A schema document failing validation (every required key missing). -/
def c9BadDoc : SchemaDoc :=
  { version := false, server_metrics := none, top_users := none }

/-- A schema document passing validation. -/
def c9OkDoc : SchemaDoc :=
  { version := true, server_metrics := some ⟨[]⟩, top_users := some ⟨[]⟩ }

/-- A run in which only the `docs` generator raises. -/
def c9Gens : String → Except String (List String) :=
  fun n => if n = "docs" then Except.error "boom" else Except.ok [n]

/-- An input map for `ServerMetrics.from_dict` carrying one unknown key and
lacking the non-optional `id`, `timestamp` keys. -/
def c10Data : List (String × PyValue) :=
  [("server_name", PyValue.str "a"), ("unknown_key", PyValue.int 7)]

/-! ### Helper lemmas -/

lemma splitCharAux_no_sep (sep : Char) (cs : List Char) (acc : List Char)
    (h : sep ∉ cs) :
    splitCharAux sep cs acc = [String.mk (acc.reverse ++ cs)] := by
  induction cs generalizing acc with
  | nil => simp [splitCharAux]
  | cons c cs ih =>
      have hcs : c ≠ sep := fun hc => h (by simp [hc])
      have hrest : sep ∉ cs := fun hm => h (List.mem_cons_of_mem _ hm)
      simp only [splitCharAux, if_neg hcs, ih (c :: acc) hrest]
      simp

lemma mem_splitCharAux_not_contains (sep : Char) :
    ∀ (cs acc : List Char), sep ∉ acc →
      ∀ x ∈ splitCharAux sep cs acc, sep ∉ x.data := by
  intro cs
  induction cs with
  | nil =>
      intro acc hacc x hx
      simp only [splitCharAux, List.mem_singleton] at hx
      subst hx
      simpa using fun hm => hacc (List.mem_reverse.mp hm)
  | cons c cs ih =>
      intro acc hacc x hx
      simp only [splitCharAux] at hx
      by_cases hc : c = sep
      · rw [if_pos hc] at hx
        rcases List.mem_cons.mp hx with rfl | hx2
        · simpa using fun hm => hacc (List.mem_reverse.mp hm)
        · exact ih [] (by simp) x hx2
      · rw [if_neg hc] at hx
        refine ih (c :: acc) ?_ x hx
        intro hm
        rcases List.mem_cons.mp hm with rfl | hm2
        · exact hc rfl
        · exact hacc hm2

lemma mem_pySplit_not_contains (s : String) (sep : Char) (x : String)
    (hx : x ∈ pySplit s sep) : sep ∉ x.data :=
  mem_splitCharAux_not_contains sep s.data [] (by simp) x hx

lemma pySplit_no_sep (x : String) (sep : Char) (h : sep ∉ x.data) :
    pySplit x sep = [x] := by
  unfold pySplit
  rw [splitCharAux_no_sep sep x.data [] h]
  cases x
  simp

lemma getD_mem {α : Type} [Inhabited α] (l : List α) (i : Nat) (d : α)
    (h : i < l.length) : l.getD i d ∈ l := by
  have h1 : l.getD i d = l.get ⟨i, h⟩ := by
    simp [List.getD, List.getElem?_eq_getElem h, List.get_eq_getElem]
  rw [h1]
  exact l.get_mem _ _

lemma lookup_cons_ne {β : Type} (a k : String) (w : β)
    (data : List (String × β)) (h : a ≠ k) :
    List.lookup a ((k, w) :: data) = List.lookup a data := by
  simp only [List.lookup]
  rw [show (a == k) = false from beq_eq_false_iff_ne.mpr h]

lemma lookup_cons_self {β : Type} (k : String) (w : β)
    (data : List (String × β)) :
    List.lookup k ((k, w) :: data) = some w := by
  simp [List.lookup]

/-- `runFields` never sets a key that is not a declared field name. -/
lemma lookup_runFields_not_mem (parts : List String) (fs : List BashField)
    (nm : String) (h : nm ∉ fs.map BashField.name) :
    List.lookup nm (runFields parts fs) = none := by
  induction fs with
  | nil => rfl
  | cons f fs ih =>
      have hne : nm ≠ f.name := by
        intro he
        exact h (by simp [he])
      have hrest : nm ∉ fs.map BashField.name := by
        intro hm
        exact h (by simp [hm])
      simp only [runFields]
      cases extractField parts f.bash_index f.bash_format with
      | none => exact ih hrest
      | some v => rw [lookup_cons_ne nm f.name v _ hne]; exact ih hrest

/-- Looking a field's name up in the generated parser's result dict gives
exactly the field's own emitted extraction (assuming the schema's unique
field names). -/
lemma lookup_runFields (parts : List String) (fs : List BashField)
    (f : BashField) (hn : (fs.map BashField.name).Nodup) (hf : f ∈ fs) :
    List.lookup f.name (runFields parts fs) =
      extractField parts f.bash_index f.bash_format := by
  induction fs with
  | nil => cases hf
  | cons f0 fs ih =>
      have hn2 : (fs.map BashField.name).Nodup := (List.nodup_cons.mp hn).2
      have hnm : f0.name ∉ fs.map BashField.name := (List.nodup_cons.mp hn).1
      rcases List.mem_cons.mp hf with rfl | hmem
      · simp only [runFields]
        cases hx : extractField parts f.bash_index f.bash_format with
        | none => exact lookup_runFields_not_mem parts fs f.name hnm
        | some v => exact lookup_cons_self f.name v _
      · have hne : f.name ≠ f0.name := by
          intro he
          exact hnm (he ▸ List.mem_map_of_mem BashField.name hmem)
        simp only [runFields]
        cases extractField parts f0.bash_index f0.bash_format with
        | none => exact ih hn2 hmem
        | some v => rw [lookup_cons_ne f.name f0.name v _ hne]; exact ih hn2 hmem

/-- `from_dict` reads `data` only through the declared names. -/
lemma from_dict_congr (decls : List FieldDecl)
    (data1 data2 : List (String × PyValue))
    (h : ∀ d ∈ decls, List.lookup d.name data1 = List.lookup d.name data2) :
    from_dict decls data1 = from_dict decls data2 := by
  induction decls with
  | nil => rfl
  | cons d ds ih =>
      have hd := h d (by simp)
      have hds : ∀ d2 ∈ ds, List.lookup d2.name data1 = List.lookup d2.name data2 :=
        fun d2 hm => h d2 (by simp [hm])
      simp only [from_dict, hd, ih hds]

lemma from_dict_skip (decls : List FieldDecl) (k : String) (w : PyValue)
    (data : List (String × PyValue)) (h : ∀ d ∈ decls, d.name ≠ k) :
    from_dict decls ((k, w) :: data) = from_dict decls data :=
  from_dict_congr decls _ _ (fun d hd => lookup_cons_ne d.name k w data (h d hd))

/-- Round trip of the generated conversion pair: `from_dict` applied to
`to_dict` rebuilds the instance with every value serialized (datetimes
come back as their isoformat text, everything else unchanged). -/
lemma from_dict_to_dict (decls : List FieldDecl) (vals : List PyValue)
    (hn : (decls.map FieldDecl.name).Nodup) (hl : decls.length = vals.length) :
    from_dict decls (to_dict decls vals) = Except.ok (vals.map serializeValue) := by
  induction decls generalizing vals with
  | nil =>
      cases vals with
      | nil => rfl
      | cons v vs => simp at hl
  | cons d ds ih =>
      cases vals with
      | nil => simp at hl
      | cons v vs =>
          have hn2 : (ds.map FieldDecl.name).Nodup := (List.nodup_cons.mp hn).2
          have hnm : d.name ∉ ds.map FieldDecl.name := (List.nodup_cons.mp hn).1
          have hl2 : ds.length = vs.length := by simpa using hl
          have hskip : ∀ d2 ∈ ds, d2.name ≠ d.name := by
            intro d2 hm he
            exact hnm (he ▸ List.mem_map_of_mem FieldDecl.name hm)
          simp only [to_dict, List.zip_cons_cons, List.map_cons]
          simp only [from_dict, lookup_cons_self]
          rw [from_dict_skip ds d.name (serializeValue v) _ hskip]
          have := ih vs hn2 hl2
          simp only [to_dict] at this
          rw [this]

/-- When `from_dict` succeeds, the built instance is determined field by
field: the value found under the field's name, defaulting to `None`. -/
lemma from_dict_ok_eq (decls : List FieldDecl)
    (data : List (String × PyValue)) (vals : List PyValue)
    (h : from_dict decls data = Except.ok vals) :
    vals = decls.map
      (fun d => (List.lookup d.name data).getD PyValue.none_) := by
  induction decls generalizing vals with
  | nil =>
      simp only [from_dict] at h
      cases h
      rfl
  | cons d ds ih =>
      simp only [from_dict] at h
      cases hl : List.lookup d.name data with
      | some v =>
          rw [hl] at h
          cases hr : from_dict ds data with
          | ok vs =>
              rw [hr] at h
              cases h
              simp [hl, ih vs hr]
          | error e => rw [hr] at h; cases h
      | none =>
          rw [hl] at h
          by_cases ho : is_optional d
          · rw [if_pos ho] at h
            cases hr : from_dict ds data with
            | ok vs =>
                rw [hr] at h
                cases h
                simp [hl, ih vs hr]
            | error e => rw [hr] at h; cases h
          · rw [if_neg ho] at h
            cases h

/-- A map missing the key of a non-optional declared field makes
`from_dict` fail. -/
lemma from_dict_missing_required (decls : List FieldDecl)
    (data : List (String × PyValue)) (d : FieldDecl) (hd : d ∈ decls)
    (hopt : is_optional d = false)
    (hmiss : List.lookup d.name data = none) :
    ∃ e, from_dict decls data = Except.error e := by
  induction decls with
  | nil => cases hd
  | cons d0 ds ih =>
      rcases List.mem_cons.mp hd with rfl | hmem
      · refine ⟨d.name, ?_⟩
        simp only [from_dict, hmiss, hopt]
        simp
      · simp only [from_dict]
        cases hl : List.lookup d0.name data with
        | some v =>
            obtain ⟨e, he⟩ := ih hmem
            exact ⟨e, by rw [he]⟩
        | none =>
            by_cases ho : is_optional d0
            · obtain ⟨e, he⟩ := ih hmem
              rw [if_pos ho, he]
              exact ⟨e, rfl⟩
            · exact ⟨d0.name, by rw [if_neg ho]⟩

/-- The validator fires at least one duplicate-provenance error on a field
list iff the accumulated pair list, seeded with `seen`, repeats a pair. -/
lemma serverFieldsCheck_dup_iff (fs : List SchemaField)
    (seen : List (Nat × String)) (hseen : seen.Nodup) :
    ((serverFieldsCheck fs seen).any isDupErr = true) ↔
      ¬ (seen ++ bashPairs fs).Nodup := by
  induction fs generalizing seen with
  | nil => simp [serverFieldsCheck, bashPairs, hseen]
  | cons f fs ih =>
      cases hname : f.name with
      | none =>
          simp only [serverFieldsCheck, bashPairs, hname, List.any_cons]
          simpa [isDupErr] using ih seen hseen
      | some n =>
          cases hbo : f.bash_output with
          | false =>
              simp only [serverFieldsCheck, bashPairs, hname, hbo, List.any_append]
              have htyp : ((if f.ftype.isNone then [VError.fieldMissingType n]
                  else []).any isDupErr) = false := by
                by_cases hft : f.ftype.isNone <;> simp [hft, isDupErr]
              rw [htyp]
              simpa using ih seen hseen
          | true =>
              cases hbi : f.bash_index with
              | none =>
                  simp only [serverFieldsCheck, bashPairs, hname, hbo, hbi,
                    List.any_append]
                  have htyp : ((if f.ftype.isNone then [VError.fieldMissingType n]
                      else []).any isDupErr) = false := by
                    by_cases hft : f.ftype.isNone <;> simp [hft, isDupErr]
                  rw [htyp]
                  simpa using ih seen hseen
              | some idx =>
                  simp only [serverFieldsCheck, bashPairs, hname, hbo, hbi,
                    List.any_append]
                  have htyp : ((if f.ftype.isNone then [VError.fieldMissingType n]
                      else []).any isDupErr) = false := by
                    by_cases hft : f.ftype.isNone <;> simp [hft, isDupErr]
                  rw [htyp]
                  by_cases hdup : (idx, f.bash_format.getD "raw") ∈ seen
                  · rw [if_pos hdup]
                    constructor
                    · intro _ hnd
                      rcases List.nodup_append.mp hnd with ⟨_, _, hdisj⟩
                      exact hdisj hdup (by simp)
                    · intro _
                      simp [isDupErr]
                  · rw [if_neg hdup]
                    have hseen2 : (seen ++ [(idx, f.bash_format.getD "raw")]).Nodup := by
                      refine List.Nodup.append hseen (by simp) ?_
                      intro a ha hb
                      simp only [List.mem_singleton] at hb
                      subst hb
                      exact hdup ha
                    have := ih (seen ++ [(idx, f.bash_format.getD "raw")]) hseen2
                    simp only [List.append_assoc, List.singleton_append] at this
                    simpa using this

/-- The `top_users` field loop never reports duplicate provenance. -/
lemma topUsersCheck_no_dup (fs : List SchemaField) :
    (topUsersCheck fs).any isDupErr = false := by
  induction fs with
  | nil => rfl
  | cons f fs ih =>
      simp only [topUsersCheck, List.filterMap_cons]
      by_cases hc : (f.name.isNone || f.ftype.isNone) = true
      · simp only [hc, if_pos]
        simpa [topUsersCheck, isDupErr] using ih
      · simp only [hc]
        simpa [topUsersCheck] using ih

/-- Duplicate-provenance errors of a full validation run all come from the
`server_metrics` field loop. -/
lemma validate_schema_any_dup (s : SchemaDoc) :
    (validate_schema s).any isDupErr =
      (match s.server_metrics with
       | some e => (serverFieldsCheck e.fields []).any isDupErr
       | none => false) := by
  unfold validate_schema
  simp only [List.any_append]
  have h1 : ((if s.version then [] else [VError.missingKey "version"]).any isDupErr)
      = false := by
    by_cases hv : s.version <;> simp [hv, isDupErr]
  have h2 : ((if s.server_metrics.isSome then []
      else [VError.missingKey "server_metrics"]).any isDupErr) = false := by
    by_cases hv : s.server_metrics.isSome <;> simp [hv, isDupErr]
  have h3 : ((if s.top_users.isSome then []
      else [VError.missingKey "top_users"]).any isDupErr) = false := by
    by_cases hv : s.top_users.isSome <;> simp [hv, isDupErr]
  rw [h1, h2, h3]
  cases s.server_metrics with
  | none =>
      cases s.top_users with
      | none => simp
      | some e2 => simp [topUsersCheck_no_dup]
  | some e =>
      cases s.top_users with
      | none => simp
      | some e2 => simp [topUsersCheck_no_dup]

/-- A `server_metrics` field with no `name` key is always reported. -/
lemma serverFieldsCheck_missing_name (fs : List SchemaField)
    (f : SchemaField) (hf : f ∈ fs) (hname : f.name = none) :
    ∀ seen, VError.fieldMissingName ∈ serverFieldsCheck fs seen := by
  induction fs with
  | nil => cases hf
  | cons f0 fs ih =>
      intro seen
      rcases List.mem_cons.mp hf with rfl | hmem
      · simp [serverFieldsCheck, hname]
      · cases hname0 : f0.name with
        | none => simp [serverFieldsCheck, hname0, ih hmem]
        | some n =>
            simp only [serverFieldsCheck, hname0]
            cases hbo : f0.bash_output with
            | false => simp [ih hmem]
            | true =>
                cases hbi : f0.bash_index with
                | none => simp [ih hmem]
                | some idx => simp [ih hmem]

/-- A named `server_metrics` field with no `type` key is always reported. -/
lemma serverFieldsCheck_missing_type (fs : List SchemaField)
    (f : SchemaField) (nm : String) (hf : f ∈ fs) (hname : f.name = some nm)
    (htype : f.ftype = none) :
    ∀ seen, VError.fieldMissingType nm ∈ serverFieldsCheck fs seen := by
  induction fs with
  | nil => cases hf
  | cons f0 fs ih =>
      intro seen
      rcases List.mem_cons.mp hf with rfl | hmem
      · simp only [serverFieldsCheck, hname]
        have hft : f.ftype.isNone = true := by simp [htype]
        cases hbo : f.bash_output with
        | false => simp [hft]
        | true =>
            cases hbi : f.bash_index with
            | none => simp [hft]
            | some idx => simp [hft]
      · cases hname0 : f0.name with
        | none => simp [serverFieldsCheck, hname0, ih hmem]
        | some n =>
            simp only [serverFieldsCheck, hname0]
            cases hbo : f0.bash_output with
            | false => simp [ih hmem]
            | true =>
                cases hbi : f0.bash_index with
                | none => simp [ih hmem]
                | some idx => simp [ih hmem]

lemma lookup_filter {β : Type} (key : String) (data : List (String × β))
    (P : String × β → Bool) (hP : ∀ kv ∈ data, kv.1 = key → P kv = true) :
    List.lookup key (data.filter P) = List.lookup key data := by
  induction data with
  | nil => rfl
  | cons kv rest ih =>
      have hrest : ∀ kv2 ∈ rest, kv2.1 = key → P kv2 = true :=
        fun kv2 hm => hP kv2 (by simp [hm])
      by_cases hk : kv.1 = key
      · have hPkv : P kv = true := hP kv (by simp) hk
        obtain ⟨a, b⟩ := kv
        simp only at hk
        subst hk
        simp only [List.filter_cons, hPkv, if_pos]
        rw [lookup_cons_self, lookup_cons_self]
      · cases hPkv : P kv with
        | true =>
            obtain ⟨a, b⟩ := kv
            simp only at hk
            simp only [List.filter_cons, hPkv, if_pos]
            rw [lookup_cons_ne key a b _ (fun he => hk he.symm),
              lookup_cons_ne key a b _ (fun he => hk he.symm)]
            exact ih hrest
        | false =>
            obtain ⟨a, b⟩ := kv
            simp only at hk
            simp only [List.filter_cons, hPkv]
            simp only [Bool.false_eq_true, if_false]
            rw [lookup_cons_ne key a b _ (fun he => hk he.symm)]
            exact ih hrest

lemma lookup_eq_none_of_not_mem {β : Type} (key : String)
    (table : List (String × β)) (h : key ∉ table.map Prod.fst) :
    List.lookup key table = none := by
  induction table with
  | nil => rfl
  | cons kv rest ih =>
      have hne : key ≠ kv.1 := by
        intro he
        exact h (by simp [he])
      obtain ⟨a, b⟩ := kv
      rw [lookup_cons_ne key a b rest hne]
      exact ih (fun hm => h (by simp; right; simpa using hm))

/-- Looking up a declared `top_users` field name in the mapped pair list
gives the field's own entry. -/
lemma lookup_map_fields {β : Type} (fields : List (String × Nat))
    (g : String × Nat → β) (nm : String) (idx : Nat)
    (hmem : (nm, idx) ∈ fields) (hn : (fields.map Prod.fst).Nodup) :
    List.lookup nm (fields.map (fun f => (f.1, g f))) = some (g (nm, idx)) := by
  induction fields with
  | nil => cases hmem
  | cons f0 fs ih =>
      have hn2 : (fs.map Prod.fst).Nodup := (List.nodup_cons.mp hn).2
      have hnm : f0.1 ∉ fs.map Prod.fst := (List.nodup_cons.mp hn).1
      rcases List.mem_cons.mp hmem with rfl | hmem2
      · simp only [List.map_cons]
        exact lookup_cons_self nm _ _
      · have hne : nm ≠ f0.1 := by
          intro he
          refine hnm ?_
          rw [← he]
          exact List.mem_map_of_mem Prod.fst hmem2
        simp only [List.map_cons]
        rw [lookup_cons_ne nm f0.1 _ _ hne]
        exact ih hmem2 hn2

/-- The aggregate success flag of the orchestrator loop: true iff the
initial flag was true and no tried generator raised. -/
lemma foldl_runTarget_success (gens : String → Except String (List String))
    (names : List String) (st : RunState) :
    (names.foldl (runTarget gens) st).success =
      (st.success && names.all (fun n => !(isErr (gens n)))) := by
  induction names generalizing st with
  | nil => simp
  | cons n ns ih =>
      simp only [List.foldl_cons, List.all_cons]
      rw [ih]
      cases hg : gens n with
      | ok files => simp [runTarget, hg, isErr, Bool.and_assoc]
      | error e => simp [runTarget, hg, isErr]

/-- The orchestrator loop tries every listed target, in order, regardless
of failures. -/
lemma foldl_runTarget_attempted (gens : String → Except String (List String))
    (names : List String) (st : RunState) :
    (names.foldl (runTarget gens) st).attempted = st.attempted ++ names := by
  induction names generalizing st with
  | nil => simp
  | cons n ns ih =>
      simp only [List.foldl_cons]
      cases hg : gens n with
      | ok files => rw [ih]; simp [runTarget, hg]
      | error e => rw [ih]; simp [runTarget, hg]

/-! ### Claims -/

/-- Claim C1, counterexample: the claim asserts
`from_map(to_map(instance)) = instance` in particular for instances whose
date/time-typed fields hold date/time values.  On the generated
`ServerMetrics`, an all-present instance whose `timestamp` holds a datetime
does not round-trip: `to_dict` renders the datetime as its isoformat text
and `from_dict` passes that text through unparsed, so the rebuilt instance
differs from the original. -/
theorem roundtrip_datetime_counterexample :
    from_dict serverMetricsDecls (to_dict serverMetricsDecls c1Vals) ≠
      Except.ok c1Vals := by
  rw [show from_dict serverMetricsDecls (to_dict serverMetricsDecls c1Vals) =
      Except.ok (c1Vals.map serializeValue) from rfl]
  simp only [ne_eq, Except.ok.injEq]
  decide

/-- Claim C1 (amended): for every generated record type with its declared
field names unique and every all-present instance, `from_dict` after
`to_dict` rebuilds the instance with each value serialized — equal to the
original precisely on the fields not holding a date/time value; when no
field holds a date/time value the round trip is the identity. -/
theorem from_dict_to_dict_roundtrip (decls : List FieldDecl)
    (vals : List PyValue) (hn : (decls.map FieldDecl.name).Nodup)
    (hl : decls.length = vals.length) :
    from_dict decls (to_dict decls vals) = Except.ok (vals.map serializeValue)
    ∧ ((∀ v ∈ vals, isDatetime v = false) →
        from_dict decls (to_dict decls vals) = Except.ok vals) := by
  refine ⟨from_dict_to_dict decls vals hn hl, fun hnd => ?_⟩
  rw [from_dict_to_dict decls vals hn hl]
  congr 1
  have hid : ∀ v ∈ vals, serializeValue v = v := by
    intro v hv
    have hv2 := hnd v hv
    cases v <;> simp [serializeValue, isDatetime] at hv2 ⊢
  calc vals.map serializeValue = vals.map id := List.map_congr_left hid
    _ = vals := List.map_id vals

/-- Claim C1, witness: on the generated `ServerMetrics` declarations with a
concrete instance holding no datetime value, the round trip is the
identity. -/
theorem from_dict_to_dict_roundtrip_witness :
    from_dict serverMetricsDecls (to_dict serverMetricsDecls c1ValsText) =
      Except.ok c1ValsText :=
  (from_dict_to_dict_roundtrip serverMetricsDecls c1ValsText (by decide)
    (by decide)).2 (by decide)

/-- Claim C2, counterexample: the claim asserts that duplicate
`(source_index, source_format)` pairs within *every* entity are rejected.
On a document whose `top_users` entity has two distinct fields with the
identical extraction pair the validator returns no error at all: the
duplicate check is only implemented for `server_metrics`. -/
theorem validator_top_users_duplicate_counterexample :
    validate_schema c2Doc = [] ∧
    (∃ ent, c2Doc.top_users = some ent ∧ ¬ (bashPairs ent.fields).Nodup) := by
  exact ⟨by decide, ⟨_, rfl, by decide⟩⟩

/-- Claim C2 (amended): only the `server_metrics` entity is checked for
duplicate extraction provenance: the validator reports at least one
duplicate-provenance error (an error naming the offending field, not the
entity) iff the `(bash_index, bash_format)` pairs accumulated over that
entity's bash-output fields repeat; in particular two fields sharing an
index with different formats contribute distinct pairs and trigger no
error, and duplicates inside `top_users` trigger none. -/
theorem validator_duplicate_provenance (s : SchemaDoc) :
    ((validate_schema s).any isDupErr = true) ↔
      (∃ ent, s.server_metrics = some ent ∧ ¬ (bashPairs ent.fields).Nodup) := by
  rw [validate_schema_any_dup]
  cases hsm : s.server_metrics with
  | none => simp
  | some e =>
      rw [serverFieldsCheck_dup_iff e.fields [] (by simp)]
      simp

/-- Claim C3, counterexample: on the literal input line of the claim, the
whole line is comma-split first, so positional slot 8 holds `0.1`;
`csv_split_1` re-splits that slot and finds no sub-part 1, so the field is
assigned `None` — not `0.2` as the claim states. -/
theorem csv_split_sample_line_counterexample :
    (pySplit (pyStrip sampleLine) ',').getD 8 "" = "0.1" ∧
    List.lookup "cpu_load_5min"
      (parse_server_metrics serverMetricsBashFields sampleLine) = some none := by
  exact ⟨by decide, by decide⟩

/-- Claim C3 (amended): on the positional single-line shape the line is
comma-split before any per-field rule runs, so a positional slot can never
itself contain a comma; hence a field with `source_format=csv_split_N` for
any `N ≥ 1` never extracts a present value on this shape — it is assigned
`None` whenever its index is in range and omitted otherwise. -/
theorem csv_split_single_line_never_extracts (fields : List BashField)
    (line : String) (f : BashField) (n : Nat)
    (hn : (fields.map BashField.name).Nodup) (hf : f ∈ fields)
    (hfmt : f.bash_format = BashFormat.csv_split n) (hn1 : 1 ≤ n) :
    ∀ v : String,
      List.lookup f.name (parse_server_metrics fields line) ≠ some (some v) := by
  intro v
  unfold parse_server_metrics
  rw [lookup_runFields _ fields f hn hf, hfmt]
  by_cases hidx : f.bash_index < (pySplit (pyStrip line) ',').length
  · have hslot : (pySplit (pyStrip line) ',').getD f.bash_index "" ∈
        pySplit (pyStrip line) ',' := getD_mem _ _ _ hidx
    have hnc : (',' : Char) ∉
        ((pySplit (pyStrip line) ',').getD f.bash_index "").data :=
      mem_pySplit_not_contains _ ',' _ hslot
    have hsplit : pySplit ((pySplit (pyStrip line) ',').getD f.bash_index "") ','
        = [(pySplit (pyStrip line) ',').getD f.bash_index ""] :=
      pySplit_no_sep _ ',' hnc
    have hlt : ¬ n < ([(pySplit (pyStrip line) ',').getD f.bash_index ""] :
        List String).length := by
      simp
      omega
    simp only [extractField, if_pos hidx, hsplit, if_neg hlt]
    simp
  · simp [extractField, if_neg hidx]

/-- Claim C3, witness: the field declared `(8, csv_split_1)` extracts no
value whatsoever — in particular not `0.2` — from the claim's literal
line. -/
theorem csv_split_single_line_never_extracts_witness :
    List.lookup "cpu_load_5min"
      (parse_server_metrics serverMetricsBashFields sampleLine) ≠
        some (some "0.2") :=
  csv_split_single_line_never_extracts serverMetricsBashFields sampleLine
    ⟨"cpu_load_5min", 8, BashFormat.csv_split 1⟩ 1 (by decide) (by decide) rfl
    (by decide) "0.2"

/-- Claim C4, counterexample: the claim asserts trim-then-remove-one-
trailing-percent semantics, predicting ` 20% ` extracts `20` and `20%%`
extracts `20%`.  The emitted code is `parts[i].rstrip('%').strip()`: it
removes every trailing `%` from the raw (untrimmed) value and trims
afterwards, so ` 20% ` extracts `20%` and `20%%` extracts `20`. -/
theorem strip_percent_counterexample :
    extractField [" 20% "] 0 BashFormat.strip_percent = some (some "20%") ∧
    extractField ["20%%"] 0 BashFormat.strip_percent = some (some "20") ∧
    List.lookup "disk_percentage"
      (parse_server_metrics serverMetricsBashFields c4Line) =
        some (some "20%") := by
  exact ⟨by decide, by decide, by decide⟩

/-- Claim C4 (amended): for every field with `source_format=strip_percent`
and every in-range index, the generated parser assigns the raw positional
value with all trailing `%` characters removed first and surrounding
whitespace trimmed afterwards; so `20%` extracts `20`, but ` 20% ` extracts
`20%` and `20%%` extracts `20`. -/
theorem strip_percent_extraction (fields : List BashField) (line : String)
    (f : BashField) (hn : (fields.map BashField.name).Nodup) (hf : f ∈ fields)
    (hfmt : f.bash_format = BashFormat.strip_percent)
    (hidx : f.bash_index < (pySplit (pyStrip line) ',').length) :
    List.lookup f.name (parse_server_metrics fields line) =
      some (some (pyStrip (pyRstripPercent
        ((pySplit (pyStrip line) ',').getD f.bash_index "")))) := by
  unfold parse_server_metrics
  rw [lookup_runFields _ fields f hn hf, hfmt]
  simp [extractField, if_pos hidx]

/-- Claim C4, witness: on a line whose slot 7 is ` 20% `, the
`disk_percentage` field extracts `20%`. -/
theorem strip_percent_extraction_witness :
    List.lookup "disk_percentage"
      (parse_server_metrics serverMetricsBashFields c4Line) =
        some (some "20%") := by
  rw [strip_percent_extraction serverMetricsBashFields c4Line
    ⟨"disk_percentage", 7, BashFormat.strip_percent⟩ (by decide) (by decide) rfl
    (by decide)]
  decide

/-- Claim C5, counterexample: the claim asserts `part_after_slash` takes
everything after the first slash, predicting `a/b/c` extracts `b/c`.  The
emitted code is `parts[i].split('/')[1]`: it splits on every slash and
takes the second component, so `a/b/c` extracts `b`. -/
theorem part_after_slash_counterexample :
    extractField ["a/b/c"] 0 BashFormat.part_after_slash = some (some "b") ∧
    List.lookup "ram_total"
      (parse_server_metrics serverMetricsBashFields "w,x,y,z,a/b/c") =
        some (some "b") := by
  exact ⟨by decide, by decide⟩

/-- Claim C5 (amended): for every in-range positional value, the generated
parser splits the value on every `/`: `part_before_slash` extracts the
trimmed component before the first slash and `part_after_slash` the trimmed
component between the first and second slash (for a value with one slash,
everything after it); when the value contains no `/` both formats extract
the full trimmed value.  `8G/16G` extracts `8G` and `16G`; `a/b/c` extracts
`a` and `b`. -/
theorem slash_extraction (fields : List BashField) (line : String)
    (f : BashField) (hn : (fields.map BashField.name).Nodup) (hf : f ∈ fields)
    (hidx : f.bash_index < (pySplit (pyStrip line) ',').length) :
    (f.bash_format = BashFormat.part_before_slash →
      List.lookup f.name (parse_server_metrics fields line) =
        some (some
          (if pyContainsSlash ((pySplit (pyStrip line) ',').getD f.bash_index "")
           then pyStrip ((pySplit
             ((pySplit (pyStrip line) ',').getD f.bash_index "") '/').getD 0 "")
           else pyStrip ((pySplit (pyStrip line) ',').getD f.bash_index ""))))
    ∧ (f.bash_format = BashFormat.part_after_slash →
      List.lookup f.name (parse_server_metrics fields line) =
        some (some
          (if pyContainsSlash ((pySplit (pyStrip line) ',').getD f.bash_index "")
           then pyStrip ((pySplit
             ((pySplit (pyStrip line) ',').getD f.bash_index "") '/').getD 1 "")
           else pyStrip ((pySplit (pyStrip line) ',').getD f.bash_index "")))) := by
  constructor <;> intro hfmt <;>
    (unfold parse_server_metrics
     rw [lookup_runFields _ fields f hn hf, hfmt]
     simp [extractField, if_pos hidx])

/-- Claim C5, witness: slot 4 of value `8G/16G` extracts `8G` under
`part_before_slash` and `16G` under `part_after_slash`. -/
theorem slash_extraction_witness :
    List.lookup "ram_used"
      (parse_server_metrics serverMetricsBashFields "w,x,y,z,8G/16G") =
        some (some "8G") ∧
    List.lookup "ram_total"
      (parse_server_metrics serverMetricsBashFields "w,x,y,z,8G/16G") =
        some (some "16G") := by
  constructor
  · rw [(slash_extraction serverMetricsBashFields "w,x,y,z,8G/16G"
      ⟨"ram_used", 4, BashFormat.part_before_slash⟩ (by decide) (by decide)
      (by decide)).1 rfl]
    decide
  · rw [(slash_extraction serverMetricsBashFields "w,x,y,z,8G/16G"
      ⟨"ram_total", 4, BashFormat.part_after_slash⟩ (by decide) (by decide)
      (by decide)).2 rfl]
    decide

/-- Claim C6, counterexample: the claim asserts all three per-target type
tables map every unknown token to that table's fixed opaque fallback.  The
storage target has no mapping table at all: it emits the unknown token
upper-cased verbatim, so two unknown tokens yield two different storage
types — there is no fixed fallback token for the storage target. -/
theorem sql_no_fixed_fallback_counterexample :
    isKnownToken "custom" = false ∧ isKnownToken "other" = false ∧
    sqlFieldType "custom" = "CUSTOM" ∧ sqlFieldType "other" = "OTHER" ∧
    sqlFieldType "custom" ≠ sqlFieldType "other" := by
  decide

/-- Claim C6 (amended): for every schema type token whose base (parameters
stripped) is outside the known token set, the in-process record table
yields the fixed fallback `Any` and the client-interface table the fixed
fallback `any`, and neither aborts; the storage target applies no mapping
table and emits the token upper-cased verbatim, which also never aborts. -/
theorem unknown_token_fallbacks (t : String) (h : isKnownToken t = false) :
    python_type_mapping t = "Any" ∧ ts_type_mapping t = "any" ∧
    sqlFieldType t = pyUpper t := by
  have hmem : pyBaseType t ∉ pythonMappingTable.map Prod.fst := by
    intro hm
    rw [isKnownToken] at h
    rw [List.contains_eq_any_beq] at h
    have : (pythonMappingTable.map Prod.fst).any
        (fun x => pyBaseType t == x) = true := by
      rw [List.any_eq_true]
      exact ⟨pyBaseType t, hm, by simp⟩
    rw [this] at h
    cases h
  have hkeys : tsMappingTable.map Prod.fst = pythonMappingTable.map Prod.fst := by
    decide
  have hts : pyBaseType t ∉ tsMappingTable.map Prod.fst := by
    rw [hkeys]
    exact hmem
  refine ⟨?_, ?_, rfl⟩
  · unfold python_type_mapping
    rw [lookup_eq_none_of_not_mem _ _ hmem]
    rfl
  · unfold ts_type_mapping
    rw [lookup_eq_none_of_not_mem _ _ hts]
    rfl

/-- Claim C6, witness: the unknown token `custom` degrades to `Any` / `any`
in the two mapped targets and passes through upper-cased in storage. -/
theorem unknown_token_fallbacks_witness :
    python_type_mapping "custom" = "Any" ∧ ts_type_mapping "custom" = "any" ∧
    sqlFieldType "custom" = pyUpper "custom" :=
  unknown_token_fallbacks "custom" (by decide)

/-- Claim C7, counterexample: the claim asserts an out-of-range index maps
the field's name to an absent/null marker in the returned record.  For the
slash formats (and the csv and percent formats) the emitted code guards the
whole assignment with the range check: on a three-slot line the declared
field `ram_used` (index 4) does not appear in the record at all. -/
theorem out_of_range_key_omitted_counterexample :
    "ram_used" ∈ serverMetricsBashFields.map BashField.name ∧
    List.lookup "ram_used"
      (parse_server_metrics serverMetricsBashFields "a,b,c") = none := by
  exact ⟨by decide, by decide⟩

/-- Claim C7 (amended): the generated extraction code is total — every
indexed access is guarded, so no input raises.  A `raw` field with
out-of-range index is mapped to `None`; a `csv_split` field with in-range
index but missing sub-part is mapped to `None`; but the slash, csv and
percent formats with out-of-range index omit the field's key from the
record entirely.  On the tabular shape every field is always mapped, with
`None` when its index is out of range (an all-whitespace line yields the
empty record). -/
theorem parser_absent_semantics :
    (∀ (fields : List BashField) (line : String) (f : BashField),
      (fields.map BashField.name).Nodup → f ∈ fields →
      ((f.bash_format = BashFormat.raw →
          (pySplit (pyStrip line) ',').length ≤ f.bash_index →
          List.lookup f.name (parse_server_metrics fields line) = some none)
       ∧ (∀ n, f.bash_format = BashFormat.csv_split n →
          f.bash_index < (pySplit (pyStrip line) ',').length →
          (pySplit ((pySplit (pyStrip line) ',').getD f.bash_index "") ',').length ≤ n →
          List.lookup f.name (parse_server_metrics fields line) = some none)
       ∧ (f.bash_format ≠ BashFormat.raw →
          (pySplit (pyStrip line) ',').length ≤ f.bash_index →
          List.lookup f.name (parse_server_metrics fields line) = none)))
    ∧ (∀ (tfields : List (String × Nat)) (tline : String) (nm : String)
        (idx : Nat), (nm, idx) ∈ tfields → (tfields.map Prod.fst).Nodup →
        pySplitWs (pyStrip tline) ≠ [] →
        List.lookup nm (parse_top_users_line tfields tline) =
          some (if idx < (pySplitWs (pyStrip tline)).length
            then some (pyStrip ((pySplitWs (pyStrip tline)).getD idx ""))
            else none)) := by
  constructor
  · intro fields line f hn hf
    refine ⟨?_, ?_, ?_⟩
    · intro hfmt hidx
      unfold parse_server_metrics
      rw [lookup_runFields _ fields f hn hf, hfmt]
      simp only [extractField]
      rw [if_neg (by omega)]
    · intro n hfmt hidx hsub
      unfold parse_server_metrics
      rw [lookup_runFields _ fields f hn hf, hfmt]
      simp only [extractField, if_pos hidx]
      rw [if_neg (by omega)]
    · intro hfmt hidx
      unfold parse_server_metrics
      rw [lookup_runFields _ fields f hn hf]
      cases hbf : f.bash_format with
      | raw => exact absurd hbf hfmt
      | part_before_slash => simp [extractField, if_neg (by omega : ¬ f.bash_index < (pySplit (pyStrip line) ',').length)]
      | part_after_slash => simp [extractField, if_neg (by omega : ¬ f.bash_index < (pySplit (pyStrip line) ',').length)]
      | csv_split n => simp [extractField, if_neg (by omega : ¬ f.bash_index < (pySplit (pyStrip line) ',').length)]
      | strip_percent => simp [extractField, if_neg (by omega : ¬ f.bash_index < (pySplit (pyStrip line) ',').length)]
  · intro tfields tline nm idx hmem hn hne
    cases hp : pySplitWs (pyStrip tline) with
    | nil => exact absurd hp hne
    | cons a as =>
        simp only [parse_top_users_line, hp, List.isEmpty_cons,
          Bool.false_eq_true, if_false]
        exact lookup_map_fields tfields
          (fun f => if f.2 < (a :: as).length
            then some (pyStrip ((a :: as).getD f.2 "")) else none) nm idx hmem hn

/-- Claim C7, witness: on a three-slot line the raw field `last_boot`
(index 9) is mapped to `None`; on a three-token tabular line the field
`full_name` (index 7) is mapped to `None`. -/
theorem parser_absent_semantics_witness :
    List.lookup "last_boot"
      (parse_server_metrics serverMetricsBashFields "a,b,c") = some none ∧
    List.lookup "full_name"
      (parse_top_users_line topUsersBashFields "alice 12 5") = some none := by
  constructor
  · exact (parser_absent_semantics.1 serverMetricsBashFields "a,b,c"
      ⟨"last_boot", 9, BashFormat.raw⟩ (by decide) (by decide)).1 rfl (by decide)
  · rw [parser_absent_semantics.2 topUsersBashFields "alice 12 5" "full_name" 7
      (by decide) (by decide) (by decide)]
    decide

/-- Claim C8, counterexample: the claim asserts a field with name `""` or
type `""` is flagged.  The validator only tests key *presence* (`"name" not
in field`), so a document whose fields carry present-but-empty names and
types passes validation with an empty finding list. -/
theorem validator_empty_name_counterexample :
    validate_schema c8Doc = [] ∧ validate_ok c8Doc = true := by
  exact ⟨by decide, by decide⟩

/-- Claim C8 (amended): the validator is a pure single pass returning its
complete finding list, and the document passes iff that list is empty; it
reports an error for every missing required top-level section and an error
for every field whose `name` or `type` *key is absent* — a present-but-empty
name or type is not flagged. -/
theorem validator_findings (s : SchemaDoc) :
    (validate_ok s = true ↔ validate_schema s = []) ∧
    (s.version = false → VError.missingKey "version" ∈ validate_schema s) ∧
    (s.server_metrics = none →
      VError.missingKey "server_metrics" ∈ validate_schema s) ∧
    (s.top_users = none → VError.missingKey "top_users" ∈ validate_schema s) ∧
    (∀ ent f, s.server_metrics = some ent → f ∈ ent.fields → f.name = none →
      VError.fieldMissingName ∈ validate_schema s) ∧
    (∀ ent f nm, s.server_metrics = some ent → f ∈ ent.fields →
      f.name = some nm → f.ftype = none →
      VError.fieldMissingType nm ∈ validate_schema s) ∧
    (∀ ent f, s.top_users = some ent → f ∈ ent.fields →
      (f.name.isNone || f.ftype.isNone) = true →
      VError.invalidTopUsersField ∈ validate_schema s) := by
  refine ⟨?_, ?_, ?_, ?_, ?_, ?_, ?_⟩
  · simp [validate_ok, List.isEmpty_iff]
  · intro hv
    unfold validate_schema
    rw [hv]
    simp
  · intro hsm
    unfold validate_schema
    rw [hsm]
    simp
  · intro htu
    unfold validate_schema
    rw [htu]
    simp
  · intro ent f hsm hf hname
    unfold validate_schema
    rw [hsm]
    have := serverFieldsCheck_missing_name ent.fields f hf hname []
    simp [this]
  · intro ent f nm hsm hf hname htype
    unfold validate_schema
    rw [hsm]
    have := serverFieldsCheck_missing_type ent.fields f nm hf hname htype []
    simp [this]
  · intro ent f htu hf hcond
    unfold validate_schema
    rw [htu]
    have : VError.invalidTopUsersField ∈ topUsersCheck ent.fields := by
      unfold topUsersCheck
      exact List.mem_filterMap.mpr ⟨f, hf, by rw [if_pos hcond]⟩
    simp [this]

/-- Claim C8, witness: on a document with a missing `version` key, a
nameless field, a typeless field named `x` and no `top_users` section,
every corresponding finding is in the returned list. -/
theorem validator_findings_witness :
    VError.missingKey "version" ∈ validate_schema c8BadDoc ∧
    VError.fieldMissingName ∈ validate_schema c8BadDoc ∧
    VError.fieldMissingType "x" ∈ validate_schema c8BadDoc ∧
    VError.missingKey "top_users" ∈ validate_schema c8BadDoc := by
  refine ⟨(validator_findings c8BadDoc).2.1 rfl,
    (validator_findings c8BadDoc).2.2.2.2.1 ⟨_⟩
      { name := none, ftype := none } rfl (by decide) rfl,
    (validator_findings c8BadDoc).2.2.2.2.2.1 ⟨_⟩
      { name := some "x", ftype := none } "x" rfl (by decide) rfl rfl,
    (validator_findings c8BadDoc).2.2.2.1 rfl⟩

/-- Claim C9 (confirmed): when validation fails the run exits 1 before any
generator is invoked; when validation passes, every selected target is
tried in the fixed order regardless of failures, and the exit status is 0
iff no tried generator raised. -/
theorem orchestrator_run (s : SchemaDoc)
    (gens : String → Except String (List String))
    (targets : Option (List String)) :
    (validate_ok s = false → mainRun s gens false targets = (1, [])) ∧
    (validate_ok s = true →
      (mainRun s gens false targets).2 =
        targetOrder.filter (fun n => (targets.getD targetOrder).contains n) ∧
      ((mainRun s gens false targets).1 = 0 ↔
        ∀ n ∈ targetOrder.filter (fun n => (targets.getD targetOrder).contains n),
          isErr (gens n) = false)) := by
  constructor
  · intro h
    simp [mainRun, h]
  · intro h
    have hst : mainRun s gens false targets =
        ((if (generate_all gens targets).success then 0 else 1),
          (generate_all gens targets).attempted) := by
      simp [mainRun, h]
    rw [hst]
    constructor
    · show (generate_all gens targets).attempted = _
      unfold generate_all
      rw [foldl_runTarget_attempted]
      simp
    · have hsucc : (generate_all gens targets).success =
          (targetOrder.filter
            (fun n => (targets.getD targetOrder).contains n)).all
            (fun n => !(isErr (gens n))) := by
        unfold generate_all
        rw [foldl_runTarget_success]
        simp
      constructor
      · intro h0
        intro n hn
        by_contra herr
        have herr2 : isErr (gens n) = true := by
          cases hcase : isErr (gens n) with
          | true => rfl
          | false => exact absurd hcase herr
        cases hs : (generate_all gens targets).success with
        | true =>
            rw [hsucc] at hs
            have := List.all_eq_true.mp hs n hn
            rw [herr2] at this
            cases this
        | false => rw [hs] at h0; cases h0
      · intro hall
        have hs : (generate_all gens targets).success = true := by
          rw [hsucc]
          rw [List.all_eq_true]
          intro n hn
          rw [hall n hn]
          rfl
        rw [hs]
        rfl

/-- Claim C9, witness: a document failing validation exits 1 with no
generator invoked; a valid document with only the `docs` generator raising
still tries all six targets and exits nonzero. -/
theorem orchestrator_run_witness :
    mainRun c9BadDoc c9Gens false none = (1, []) ∧
    (mainRun c9OkDoc c9Gens false none).2 = targetOrder ∧
    (mainRun c9OkDoc c9Gens false none).1 ≠ 0 := by
  refine ⟨(orchestrator_run c9BadDoc c9Gens none).1 (by decide), ?_, ?_⟩
  · rw [((orchestrator_run c9OkDoc c9Gens none).2 (by decide)).1]
    decide
  · intro h0
    have := ((orchestrator_run c9OkDoc c9Gens none).2 (by decide)).2.mp h0
      "docs" (by decide)
    exact absurd this (by decide)

/-- Claim C10 (confirmed): the generated map-to-record constructor drops
keys not naming a declared field; when it succeeds, every declared field
holds the value found under its name, defaulting to `None` (so absent
optional fields become `None`); and for every map lacking the key of a
non-optional field it raises instead of returning a partially-built
record. -/
theorem from_dict_contract (decls : List FieldDecl)
    (data : List (String × PyValue)) :
    (∀ d ∈ decls, is_optional d = false → List.lookup d.name data = none →
      ∃ e, from_dict decls data = Except.error e) ∧
    (from_dict decls data =
      from_dict decls
        (data.filter (fun kv => decls.any (fun d => d.name == kv.1)))) ∧
    (∀ vals, from_dict decls data = Except.ok vals →
      vals = decls.map
        (fun d => (List.lookup d.name data).getD PyValue.none_)) := by
  refine ⟨fun d hd hopt hmiss =>
      from_dict_missing_required decls data d hd hopt hmiss,
    ?_, fun vals h => from_dict_ok_eq decls data vals h⟩
  apply from_dict_congr
  intro d hd
  rw [lookup_filter d.name data _ ?_]
  intro kv hkv hkey
  rw [List.any_eq_true]
  exact ⟨d, hd, by simp [hkey]⟩

/-- Claim C10, witness: a map carrying only `server_name` and an unknown
key makes `ServerMetrics.from_dict` raise (the non-optional `id` is
missing). -/
theorem from_dict_contract_witness :
    ∃ e, from_dict serverMetricsDecls c10Data = Except.error e :=
  (from_dict_contract serverMetricsDecls c10Data).1 ⟨"id", true, true⟩
    (by decide) (by decide) (by decide)

end ServerDashboard
